import Mathlib

/-!
Verification of the countdown/task tracker (client/src).

Dates: every `Date` value the program manipulates for counting purposes is a
local-midnight instant (`startOfToday()`, `addDays` of it, calendar cell
dates), so we model a `Date` as its epoch-day index (an `Int`).
`date-fns` operations become:
  - `differenceInCalendarDays a b` = `a - b`;
  - `addDays d n` = `d + n`;
  - `getDay` (JS day-of-week, 0 = Sunday .. 6 = Saturday) = `(d + 4) % 7`
    since epoch day 0 (1970-01-01) was a Thursday (JS day 4).
`Date.prototype.toISOString` is an injective encoding of such an instant; we
model the resulting string as an `IsoString` wrapper around the day index,
with `newDate` (the `new Date(string)` parse) as its inverse.
-/

namespace Countdown

/-- The ISO-8601 string produced by `toISOString` on a local-midnight date;
modelled by the day it encodes, since the encoding is injective. -/
structure IsoString where
  day : Int
deriving DecidableEq, Repr

def toISOString (d : Int) : IsoString := ⟨d⟩

def newDate (s : IsoString) : Int := s.day

def differenceInCalendarDays (a b : Int) : Int := a - b

def addDays (d n : Int) : Int := d + n

/-- JS `Date.prototype.getDay`: 0 = Sunday, …, 6 = Saturday. -/
def getDay (d : Int) : Int := (d + 4) % 7

def isSaturday (d : Int) : Bool := getDay d == 6

def isSunday (d : Int) : Bool := getDay d == 0

/-- `type ExcludedDate = { date: string; comment?: string }` (home.tsx). -/
structure ExcludedDate where
  date : IsoString
  comment : Option String
deriving DecidableEq, Repr

/-- `calendarDaysRemaining` (home.tsx, Firebase variant):
`if (!targetDate) return 0; return Math.max(0, differenceInCalendarDays(new Date(targetDate), today) + 1)`. -/
def calendarDaysRemaining (targetDate : Option Int) (today : Int) : Int :=
  match targetDate with
  | none => 0
  | some target => max 0 (differenceInCalendarDays target today + 1)

/-- `workingDaysRemaining` (home.tsx, Firebase variant): a counter loop
`for (let i = 0; i <= diff; i++)` over `d = addDays(today, i)`, incrementing
unless `isSaturday(d) || isSunday(d) || excludedSet.has(d.toISOString())`,
where `excludedSet = new Set(excludedDates.map(d => d.date))` (set membership
is list membership of the mapped dates). The loop body runs `diff + 1` times
when `diff ≥ 0` and zero times otherwise. -/
def workingDaysRemaining (targetDate : Option Int) (today : Int)
    (excludedDates : List ExcludedDate) : Nat :=
  match targetDate with
  | none => 0
  | some target =>
    let diff := differenceInCalendarDays target today
    let excludedSet := excludedDates.map (fun d => d.date)
    (List.range (diff + 1).toNat).foldl
      (fun count i =>
        let d := addDays today (Int.ofNat i)
        if !(isSaturday d) && !(isSunday d) && !(excludedSet.contains (toISOString d))
        then count + 1 else count)
      0

/-- Whether a day is counted by the `workingDaysRemaining` loop. -/
def countsAsWorking (excludedDates : List ExcludedDate) (d : Int) : Bool :=
  !(isSaturday d) && !(isSunday d)
    && !((excludedDates.map (fun e => e.date)).contains (toISOString d))

theorem foldl_count_eq_countP (p : Nat → Bool) (l : List Nat) (n : Nat) :
    l.foldl (fun count i => if p i then count + 1 else count) n = n + l.countP p := by
  induction l generalizing n with
  | nil => simp
  | cons a t ih =>
    simp only [List.foldl_cons, List.countP_cons, ih]
    split <;> omega

theorem workingDaysRemaining_eq_countP (target today : Int)
    (E : List ExcludedDate) :
    workingDaysRemaining (some target) today E =
      (List.range (target - today + 1).toNat).countP
        (fun i => countsAsWorking E (today + Int.ofNat i)) := by
  unfold workingDaysRemaining
  simp only [differenceInCalendarDays, addDays]
  rw [foldl_count_eq_countP]
  simp [countsAsWorking]

/-- C1: `workingDaysRemaining` returns 0 when the target is unset, returns 0
when the target precedes today, and otherwise counts exactly the calendar
days `d` from `today` to `target` inclusive that are neither Saturday nor
Sunday nor matched (by calendar date) by an entry of the excluded list. -/
theorem workingDaysRemaining_spec (today : Int) (E : List ExcludedDate) :
    workingDaysRemaining none today E = 0 ∧
    (∀ target : Int, target < today → workingDaysRemaining (some target) today E = 0) ∧
    (∀ target : Int, today ≤ target →
      workingDaysRemaining (some target) today E =
        ((List.range (target - today + 1).toNat).map
            (fun i => addDays today (Int.ofNat i))).countP
          (fun d => !(isSaturday d) && !(isSunday d)
            && !((E.map (fun e => e.date)).contains (toISOString d)))) := by
  refine ⟨rfl, ?_, ?_⟩
  · intro target h
    rw [workingDaysRemaining_eq_countP]
    have : (target - today + 1).toNat = 0 := by omega
    simp [this]
  · intro target _
    rw [workingDaysRemaining_eq_countP, List.countP_map]
    rfl

theorem workingDaysRemaining_spec_witness :
    ((-3 : Int) < 0 ∧ workingDaysRemaining (some (-3)) 0 [] = 0) ∧
    ((0 : Int) ≤ 4 ∧ workingDaysRemaining (some 4) 0 [] =
      ((List.range ((4 : Int) - 0 + 1).toNat).map
          (fun i => addDays 0 (Int.ofNat i))).countP
        (fun d => !(isSaturday d) && !(isSunday d)
          && !((([] : List ExcludedDate).map (fun e => e.date)).contains (toISOString d)))) :=
  ⟨⟨by decide, (workingDaysRemaining_spec 0 []).2.1 (-3) (by decide)⟩,
   ⟨by decide, (workingDaysRemaining_spec 0 []).2.2 4 (by decide)⟩⟩

/-- C2: `calendarDaysRemaining` equals `max 0 (diff + 1)`, is 0 when unset
or when the target precedes today, is 1 when the target equals today, and is
never negative. -/
theorem calendarDaysRemaining_spec (today : Int) :
    calendarDaysRemaining none today = 0 ∧
    (∀ target : Int, calendarDaysRemaining (some target) today =
      max 0 (differenceInCalendarDays target today + 1)) ∧
    (∀ target : Int, target < today → calendarDaysRemaining (some target) today = 0) ∧
    calendarDaysRemaining (some today) today = 1 ∧
    (∀ targetDate : Option Int, 0 ≤ calendarDaysRemaining targetDate today) := by
  refine ⟨rfl, fun _ => rfl, ?_, ?_, ?_⟩
  · intro target h
    simp only [calendarDaysRemaining, differenceInCalendarDays]
    omega
  · simp only [calendarDaysRemaining, differenceInCalendarDays]
    omega
  · intro targetDate
    cases targetDate with
    | none => simp [calendarDaysRemaining]
    | some t =>
      simp only [calendarDaysRemaining, differenceInCalendarDays]
      omega

theorem calendarDaysRemaining_spec_witness :
    (5 : Int) < 9 ∧ calendarDaysRemaining (some 5) 9 = 0 :=
  ⟨by decide, (calendarDaysRemaining_spec 9).2.2.1 5 (by decide)⟩

/-- C3: for every excluded list, target and today, the working-day count
never exceeds the calendar-day count. -/
theorem workingDays_le_calendarDays (targetDate : Option Int) (today : Int)
    (E : List ExcludedDate) :
    (workingDaysRemaining targetDate today E : Int) ≤
      calendarDaysRemaining targetDate today := by
  cases targetDate with
  | none => simp [workingDaysRemaining, calendarDaysRemaining]
  | some target =>
    rw [workingDaysRemaining_eq_countP]
    have hle : (List.range (target - today + 1).toNat).countP
        (fun i => countsAsWorking E (today + Int.ofNat i)) ≤
        (target - today + 1).toNat := by
      calc (List.range (target - today + 1).toNat).countP
            (fun i => countsAsWorking E (today + Int.ofNat i))
          ≤ (List.range (target - today + 1).toNat).length := List.countP_le_length _
        _ = (target - today + 1).toNat := List.length_range _
    simp only [calendarDaysRemaining, differenceInCalendarDays]
    omega

/-- A wall-clock instant, as the program reads it: the current calendar day
(`startOfToday()`), the local hour (`getHours()`) and the minute. -/
structure Instant where
  day : Int
  hour : Nat
  minute : Nat

def END_OF_DAY_HOUR : Nat := 17

/-- `getEffectiveToday` (home.tsx): `if (now.getHours() >= END_OF_DAY_HOUR)
return addDays(startOfToday(), 1); return startOfToday()`. -/
def getEffectiveToday (now : Instant) : Int :=
  if now.hour ≥ END_OF_DAY_HOUR then addDays now.day 1 else now.day

/-- C4: at or after the 17:00 cutoff `getEffectiveToday` returns the start of
the next calendar day, before it the start of the current one; at exactly
17:00 (any minute 0) it already returns tomorrow. -/
theorem getEffectiveToday_spec (now : Instant) :
    (END_OF_DAY_HOUR ≤ now.hour → getEffectiveToday now = now.day + 1) ∧
    (now.hour < END_OF_DAY_HOUR → getEffectiveToday now = now.day) ∧
    (∀ d : Int, getEffectiveToday ⟨d, 17, 0⟩ = d + 1) := by
  refine ⟨?_, ?_, ?_⟩
  · intro h
    simp [getEffectiveToday, addDays, h]
  · intro h
    simp [getEffectiveToday, addDays, Nat.not_le.mpr h]
  · intro d
    simp [getEffectiveToday, addDays, END_OF_DAY_HOUR]

theorem getEffectiveToday_spec_witness :
    END_OF_DAY_HOUR ≤ 18 ∧ getEffectiveToday ⟨100, 18, 30⟩ = 100 + 1 :=
  ⟨by decide, (getEffectiveToday_spec ⟨100, 18, 30⟩).1 (by decide)⟩

/-- `handleToggleExclusion` (home.tsx): with `iso = date.toISOString()`,
`prev.some(d => d.date === iso) ? prev.filter(d => d.date !== iso)
: [...prev, { date: iso }]`. -/
def handleToggleExclusion (date : Int) (prev : List ExcludedDate) :
    List ExcludedDate :=
  let iso := toISOString date
  if prev.any (fun d => d.date == iso) then
    prev.filter (fun d => d.date != iso)
  else
    prev ++ [{ date := iso, comment := none }]

/-- `handleUpdateComment` (home.tsx):
`prev.map(d => d.date === iso ? { ...d, comment } : d)`. -/
def handleUpdateComment (iso : IsoString) (comment : String)
    (prev : List ExcludedDate) : List ExcludedDate :=
  prev.map (fun d => if d.date == iso then { d with comment := some comment } else d)

theorem toggle_of_present (date : Int) (prev : List ExcludedDate)
    (h : prev.any (fun d => d.date == toISOString date) = true) :
    handleToggleExclusion date prev =
      prev.filter (fun d => d.date != toISOString date) := by
  simp [handleToggleExclusion, h]

theorem toggle_of_absent (date : Int) (prev : List ExcludedDate)
    (h : prev.any (fun d => d.date == toISOString date) = false) :
    handleToggleExclusion date prev =
      prev ++ [{ date := toISOString date, comment := none }] := by
  simp [handleToggleExclusion, h]

theorem filter_not_any (date : Int) (prev : List ExcludedDate) :
    (prev.filter (fun d => d.date != toISOString date)).any
      (fun d => d.date == toISOString date) = false := by
  simp only [Bool.eq_false_iff, ne_eq, List.any_eq_true, not_exists, not_and]
  intro e he
  rcases List.mem_filter.mp he with ⟨_, hne⟩
  simpa using hne

/-- C5: toggling the exclusion of a date twice returns the excluded-dates
collection to its original contents as a set of dates (the comment fields
aside). -/
theorem handleToggleExclusion_twice (date : Int) (prev : List ExcludedDate)
    (x : IsoString) :
    x ∈ (handleToggleExclusion date (handleToggleExclusion date prev)).map
        (fun e => e.date) ↔
      x ∈ prev.map (fun e => e.date) := by
  by_cases h : prev.any (fun d => d.date == toISOString date) = true
  · have hiso : toISOString date ∈ prev.map (fun e => e.date) := by
      rcases List.any_eq_true.mp h with ⟨e, he, heq⟩
      exact List.mem_map.mpr ⟨e, he, by simpa using heq⟩
    rw [toggle_of_present date prev h,
      toggle_of_absent date _ (filter_not_any date prev)]
    constructor
    · intro hx
      rcases List.mem_map.mp hx with ⟨e, he, rfl⟩
      rcases List.mem_append.mp he with he1 | he1
      · exact List.mem_map.mpr ⟨e, (List.mem_filter.mp he1).1, rfl⟩
      · simp only [List.mem_singleton] at he1
        subst he1
        exact hiso
    · intro hx
      rcases List.mem_map.mp hx with ⟨e, he, rfl⟩
      by_cases hde : e.date = toISOString date
      · rw [hde]
        exact List.mem_map.mpr ⟨{ date := toISOString date, comment := none },
          List.mem_append.mpr (Or.inr (List.mem_singleton.mpr rfl)), rfl⟩
      · exact List.mem_map.mpr ⟨e, List.mem_append.mpr
          (Or.inl (List.mem_filter.mpr ⟨he, by simpa using hde⟩)), rfl⟩
  · have h0 : prev.any (fun d => d.date == toISOString date) = false :=
      Bool.eq_false_iff.mpr h
    have hallne : ∀ e ∈ prev, e.date ≠ toISOString date := by
      intro e he heq
      exact h (List.any_eq_true.mpr ⟨e, he, by simpa using heq⟩)
    have h1 : (prev ++ [({ date := toISOString date, comment := none } :
        ExcludedDate)]).any (fun d => d.date == toISOString date) = true := by
      refine List.any_eq_true.mpr ⟨{ date := toISOString date, comment := none },
        List.mem_append.mpr (Or.inr (List.mem_singleton.mpr rfl)), by simp⟩
    rw [toggle_of_absent date prev h0, toggle_of_present date _ h1,
      List.filter_append]
    have h2 : ([({ date := toISOString date, comment := none } :
        ExcludedDate)].filter (fun d => d.date != toISOString date)) = [] := by
      simp
    have h3 : prev.filter (fun d => d.date != toISOString date) = prev :=
      List.filter_eq_self.mpr (fun e he => by simpa using hallne e he)
    rw [h2, h3, List.append_nil]

theorem dates_handleUpdateComment (iso : IsoString) (comment : String)
    (prev : List ExcludedDate) :
    (handleUpdateComment iso comment prev).map (fun e => e.date) =
      prev.map (fun e => e.date) := by
  unfold handleUpdateComment
  rw [List.map_map]
  apply List.map_congr_left
  intro e _
  simp only [Function.comp_apply]
  split <;> rfl

/-- C6: if the excluded-dates list holds at most one entry per calendar date
(its mapped date list has no duplicate), then both toggling an exclusion and
editing an entry's comment preserve that uniqueness invariant. -/
theorem excludedDates_nodup_preserved (date : Int) (iso : IsoString)
    (comment : String) (prev : List ExcludedDate)
    (h : (prev.map (fun e => e.date)).Nodup) :
    ((handleToggleExclusion date prev).map (fun e => e.date)).Nodup ∧
    ((handleUpdateComment iso comment prev).map (fun e => e.date)).Nodup := by
  constructor
  · by_cases hp : prev.any (fun d => d.date == toISOString date) = true
    · rw [toggle_of_present date prev hp]
      exact List.Nodup.sublist ((List.filter_sublist _).map _) h
    · have h0 : prev.any (fun d => d.date == toISOString date) = false :=
        Bool.eq_false_iff.mpr hp
      rw [toggle_of_absent date prev h0, List.map_append]
      rw [List.nodup_append]
      refine ⟨h, List.nodup_singleton _, ?_⟩
      intro x hx hx1
      simp only [List.map_cons, List.map_nil, List.mem_singleton] at hx1
      subst hx1
      rcases List.mem_map.mp hx with ⟨e, he, heq⟩
      exact hp (List.any_eq_true.mpr ⟨e, he, by simpa using heq⟩)
  · rw [dates_handleUpdateComment]
    exact h

theorem excludedDates_nodup_preserved_witness :
    (([⟨⟨3⟩, none⟩, ⟨⟨5⟩, some "hol"⟩] :
        List ExcludedDate).map (fun e => e.date)).Nodup ∧
    ((handleToggleExclusion 3 [⟨⟨3⟩, none⟩, ⟨⟨5⟩, some "hol"⟩]).map
        (fun e => e.date)).Nodup ∧
    ((handleUpdateComment ⟨5⟩ "x" [⟨⟨3⟩, none⟩, ⟨⟨5⟩, some "hol"⟩]).map
        (fun e => e.date)).Nodup := by
  have h : (([⟨⟨3⟩, none⟩, ⟨⟨5⟩, some "hol"⟩] :
      List ExcludedDate).map (fun e => e.date)).Nodup := by decide
  exact ⟨h, (excludedDates_nodup_preserved 3 ⟨5⟩ "x" _ h).1,
    (excludedDates_nodup_preserved 3 ⟨5⟩ "x" _ h).2⟩

/-- In-memory `Task` (home.tsx): `dueDate` is a `Date`. -/
structure Task where
  id : String
  text : String
  completed : Bool
  dueDate : Option Int
deriving DecidableEq, Repr

/-- A task inside the serialized sync payload: `dueDate` as an ISO string. -/
structure TaskPayload where
  id : String
  text : String
  completed : Bool
  dueDate : Option IsoString
deriving DecidableEq, Repr

/-- The `AppData` sync document as read back from the remote store. Each
field can be absent (`applyRemoteData` guards every field with a JS
truthiness test before applying it), so each field is optional here; note
that an empty list is a present (truthy) value, only `undefined` is absent. -/
structure AppData where
  targetDate : Option IsoString
  excludedDates : Option (List ExcludedDate)
  tasks : Option (List TaskPayload)
deriving DecidableEq, Repr

/-- The in-memory application state (Firebase variant of home.tsx): the
three persistent `useLocalStorage` slots. -/
structure AppState where
  targetDate : Option Int
  excludedDates : List ExcludedDate
  tasks : List Task
deriving DecidableEq, Repr

/-- Task serialization in the save effect (home.tsx):
`{ ...t, dueDate: t.dueDate instanceof Date ? t.dueDate.toISOString() : undefined }`. -/
def serializeTask (t : Task) : TaskPayload :=
  { id := t.id, text := t.text, completed := t.completed,
    dueDate := t.dueDate.map toISOString }

/-- Task deserialization in `applyRemoteData` (home.tsx):
`{ ...t, dueDate: t.dueDate ? new Date(t.dueDate) : undefined }`. -/
def deserializeTask (t : TaskPayload) : Task :=
  { id := t.id, text := t.text, completed := t.completed,
    dueDate := t.dueDate.map newDate }

/-- The payload built by the save effect (home.tsx, lines 115-135):
`targetDate` serialized when it is a `Date`, `excludedDates` passed through,
tasks mapped through `serializeTask`; the two list fields are always
present. -/
def serializeAppData (s : AppState) : AppData :=
  { targetDate := s.targetDate.map toISOString,
    excludedDates := some s.excludedDates,
    tasks := some (s.tasks.map serializeTask) }

/-- `applyRemoteData` (home.tsx): three independent guarded field updates,
`if (data.targetDate) setTargetDate(new Date(data.targetDate))`,
`if (data.excludedDates) setExcludedDates(data.excludedDates)`,
`if (data.tasks) setTasks(data.tasks.map(...))`. -/
def applyRemoteData (data : AppData) (s : AppState) : AppState :=
  let s1 := match data.targetDate with
    | some t => { s with targetDate := some (newDate t) }
    | none => s
  let s2 := match data.excludedDates with
    | some e => { s1 with excludedDates := e }
    | none => s1
  match data.tasks with
  | some ts => { s2 with tasks := ts.map deserializeTask }
  | none => s2

theorem deserializeTask_serializeTask (t : Task) :
    deserializeTask (serializeTask t) = t := by
  cases t with
  | mk i tx c dd => cases dd <;> rfl

theorem map_deserialize_serialize (ts : List Task) :
    ts.map (deserializeTask ∘ serializeTask) = ts := by
  have h : deserializeTask ∘ serializeTask = id := by
    funext t
    exact deserializeTask_serializeTask t
  rw [h, List.map_id]

/-- C8: serializing the in-memory state to the sync payload and applying the
payload back through `applyRemoteData` restores the state exactly; in
particular every date field reconstructs to the same calendar date
(`newDate` inverts `toISOString`). -/
theorem serialize_applyRemoteData_roundtrip :
    (∀ s : AppState, applyRemoteData (serializeAppData s) s = s) ∧
    (∀ d : Int, newDate (toISOString d) = d) := by
  constructor
  · intro s
    cases s with
    | mk t e ts =>
      cases t with
      | none =>
        simp [applyRemoteData, serializeAppData, map_deserialize_serialize]
      | some d =>
        simp [applyRemoteData, serializeAppData, map_deserialize_serialize,
          newDate, toISOString]
  · intro d
    rfl

/-- C9: `applyRemoteData` is a per-field merge: a field absent from the
remote document leaves the corresponding local field untouched. -/
theorem applyRemoteData_frame (data : AppData) (s : AppState) :
    (data.targetDate = none →
      (applyRemoteData data s).targetDate = s.targetDate) ∧
    (data.excludedDates = none →
      (applyRemoteData data s).excludedDates = s.excludedDates) ∧
    (data.tasks = none → (applyRemoteData data s).tasks = s.tasks) := by
  cases data with
  | mk t e ts => cases t <;> cases e <;> cases ts <;> simp [applyRemoteData]

theorem applyRemoteData_frame_witness :
    (applyRemoteData ⟨none, none, none⟩
        ⟨some 7, [⟨⟨1⟩, none⟩], [⟨"a", "b", false, some 2⟩]⟩).targetDate = some 7 ∧
    (applyRemoteData ⟨none, none, none⟩
        ⟨some 7, [⟨⟨1⟩, none⟩], [⟨"a", "b", false, some 2⟩]⟩).excludedDates
      = [⟨⟨1⟩, none⟩] ∧
    (applyRemoteData ⟨none, none, none⟩
        ⟨some 7, [⟨⟨1⟩, none⟩], [⟨"a", "b", false, some 2⟩]⟩).tasks
      = [⟨"a", "b", false, some 2⟩] :=
  ⟨(applyRemoteData_frame ⟨none, none, none⟩ _).1 rfl,
   (applyRemoteData_frame ⟨none, none, none⟩ _).2.1 rfl,
   (applyRemoteData_frame ⟨none, none, none⟩ _).2.2 rfl⟩

/-- Outcome of the underlying Firebase read (`getDb` and `get` can throw;
otherwise the snapshot either exists with a document or does not). -/
inductive FirebaseReadOutcome where
  | throws (e : String)
  | absent
  | successful (data : AppData)

/-- `loadFromFirebase` (firebaseStorage.ts): the whole body is wrapped in
`try { ... } catch (error) { console.error(...); return null }`; a missing
snapshot yields `null`, a present one yields its value. -/
def loadFromFirebase (store : FirebaseReadOutcome) :
    Except String (Option AppData) :=
  let body : Except String (Option AppData) :=
    match store with
    | .throws e => .error e
    | .absent => .ok none
    | .successful d => .ok (some d)
  match body with
  | .ok v => .ok v
  | .error _ => .ok none

/-- `saveToFirebase` (firebaseStorage.ts): `try { await set(...) } catch
(error) { console.error(...) }`; `writeOutcome = some e` models `set`
throwing `e`. -/
def saveToFirebase (writeOutcome : Option String) (data : AppData) :
    Except String Unit :=
  let body : Except String Unit :=
    match writeOutcome with
    | some e => .error e
    | none => .ok ()
  match body with
  | .ok v => .ok v
  | .error _ => .ok ()

/-- C7: the remote persistence operations never raise to the caller: on any
store failure `loadFromFirebase` resolves to `null`, it always resolves (to
some value), and `saveToFirebase` always resolves normally. -/
theorem firebase_persistence_never_throws :
    (∀ e : String, loadFromFirebase (.throws e) = .ok none) ∧
    (∀ store : FirebaseReadOutcome, ∃ r, loadFromFirebase store = .ok r) ∧
    (∀ (w : Option String) (d : AppData), saveToFirebase w d = .ok ()) := by
  refine ⟨fun e => rfl, ?_, ?_⟩
  · intro store
    cases store with
    | throws e => exact ⟨none, rfl⟩
    | absent => exact ⟨none, rfl⟩
    | successful d => exact ⟨some d, rfl⟩
  · intro w d
    cases w <;> rfl

/-- JS string truthiness test on a `localStorage.getItem` result: `null`
(absent) and the empty string are falsy. -/
def strFalsy : Option String → Bool
  | none => true
  | some s => s == ""

/-- The remote document in the Gist variant (`AppData` in githubStorage.ts):
`excludedDates` and `tasks` are required arrays there. -/
structure GistAppData where
  targetDate : Option IsoString
  excludedDates : List ExcludedDate
  tasks : List TaskPayload
deriving DecidableEq, Repr

/-- Raw `localStorage` entries for the three storage keys
`daycount-target`, `daycount-excluded`, `daycount-tasks`. -/
structure LocalStore where
  target : Option String
  excluded : Option String
  tasks : Option String
deriving DecidableEq, Repr

/-- `loadFromGitHubAsync` (home.tsx, Gist variant): returns early when no
token is stored or `loadFromGitHub()` yields no data; otherwise applies each
remote field only under its guard:
`!currentTargetDate && data.targetDate`,
`(!currentExcluded || currentExcluded === "[]") && data.excludedDates.length > 0`,
`(!currentTasks || currentTasks === "[]") && data.tasks.length > 0`. -/
def loadFromGitHubAsync (githubToken : Option String)
    (loadResult : Option GistAppData) (store : LocalStore) (s : AppState) :
    AppState :=
  match githubToken with
  | none => s
  | some _ =>
    match loadResult with
    | none => s
    | some data =>
      let s1 := if strFalsy store.target && data.targetDate.isSome then
          { s with targetDate := data.targetDate.map newDate } else s
      let s2 := if (strFalsy store.excluded || store.excluded == some "[]")
            && decide (0 < data.excludedDates.length) then
          { s1 with excludedDates := data.excludedDates } else s1
      if (strFalsy store.tasks || store.tasks == some "[]")
            && decide (0 < data.tasks.length) then
        { s2 with tasks := data.tasks.map deserializeTask } else s2

theorem gist_targetDate_eq (tok : String) (data : GistAppData)
    (store : LocalStore) (s : AppState) :
    (loadFromGitHubAsync (some tok) (some data) store s).targetDate =
      if strFalsy store.target && data.targetDate.isSome
      then data.targetDate.map newDate else s.targetDate := by
  cases h1 : strFalsy store.target && data.targetDate.isSome <;>
  cases h2 : (strFalsy store.excluded || store.excluded == some "[]")
      && decide (0 < data.excludedDates.length) <;>
  cases h3 : (strFalsy store.tasks || store.tasks == some "[]")
      && decide (0 < data.tasks.length) <;>
  simp [loadFromGitHubAsync, h1, h2, h3]

theorem gist_excludedDates_eq (tok : String) (data : GistAppData)
    (store : LocalStore) (s : AppState) :
    (loadFromGitHubAsync (some tok) (some data) store s).excludedDates =
      if (strFalsy store.excluded || store.excluded == some "[]")
          && decide (0 < data.excludedDates.length)
      then data.excludedDates else s.excludedDates := by
  cases h1 : strFalsy store.target && data.targetDate.isSome <;>
  cases h2 : (strFalsy store.excluded || store.excluded == some "[]")
      && decide (0 < data.excludedDates.length) <;>
  cases h3 : (strFalsy store.tasks || store.tasks == some "[]")
      && decide (0 < data.tasks.length) <;>
  simp [loadFromGitHubAsync, h1, h2, h3]

theorem gist_tasks_eq (tok : String) (data : GistAppData)
    (store : LocalStore) (s : AppState) :
    (loadFromGitHubAsync (some tok) (some data) store s).tasks =
      if (strFalsy store.tasks || store.tasks == some "[]")
          && decide (0 < data.tasks.length)
      then data.tasks.map deserializeTask else s.tasks := by
  cases h1 : strFalsy store.target && data.targetDate.isSome <;>
  cases h2 : (strFalsy store.excluded || store.excluded == some "[]")
      && decide (0 < data.excludedDates.length) <;>
  cases h3 : (strFalsy store.tasks || store.tasks == some "[]")
      && decide (0 < data.tasks.length) <;>
  simp [loadFromGitHubAsync, h1, h2, h3]

/-- C10: the startup Gist load never overwrites existing local data: with no
token or no remote data the state is untouched, and each of the three keys
is applied only when the local storage entry is absent (falsy) or the empty
list `"[]"` and the remote value is non-empty; otherwise that key keeps its
local state. -/
theorem loadFromGitHubAsync_frame (tok : String) (data : GistAppData)
    (store : LocalStore) (s : AppState) :
    loadFromGitHubAsync none (some data) store s = s ∧
    loadFromGitHubAsync (some tok) none store s = s ∧
    (strFalsy store.target = false →
      (loadFromGitHubAsync (some tok) (some data) store s).targetDate
        = s.targetDate) ∧
    (data.targetDate = none →
      (loadFromGitHubAsync (some tok) (some data) store s).targetDate
        = s.targetDate) ∧
    (strFalsy store.target = true → ∀ t, data.targetDate = some t →
      (loadFromGitHubAsync (some tok) (some data) store s).targetDate
        = some (newDate t)) ∧
    ((strFalsy store.excluded || store.excluded == some "[]") = false →
      (loadFromGitHubAsync (some tok) (some data) store s).excludedDates
        = s.excludedDates) ∧
    (data.excludedDates = [] →
      (loadFromGitHubAsync (some tok) (some data) store s).excludedDates
        = s.excludedDates) ∧
    ((strFalsy store.excluded || store.excluded == some "[]") = true →
      data.excludedDates ≠ [] →
      (loadFromGitHubAsync (some tok) (some data) store s).excludedDates
        = data.excludedDates) ∧
    ((strFalsy store.tasks || store.tasks == some "[]") = false →
      (loadFromGitHubAsync (some tok) (some data) store s).tasks = s.tasks) ∧
    (data.tasks = [] →
      (loadFromGitHubAsync (some tok) (some data) store s).tasks = s.tasks) ∧
    ((strFalsy store.tasks || store.tasks == some "[]") = true →
      data.tasks ≠ [] →
      (loadFromGitHubAsync (some tok) (some data) store s).tasks
        = data.tasks.map deserializeTask) := by
  refine ⟨rfl, rfl, ?_, ?_, ?_, ?_, ?_, ?_, ?_, ?_, ?_⟩
  · intro h
    rw [gist_targetDate_eq]
    simp [h]
  · intro h
    rw [gist_targetDate_eq]
    simp [h]
  · intro h t ht
    rw [gist_targetDate_eq]
    simp [h, ht, newDate]
  · intro h
    rw [gist_excludedDates_eq]
    simp [h]
  · intro h
    rw [gist_excludedDates_eq]
    simp [h]
  · intro h hne
    rw [gist_excludedDates_eq]
    have : 0 < data.excludedDates.length := List.length_pos.mpr hne
    simp [h, this]
  · intro h
    rw [gist_tasks_eq]
    simp [h]
  · intro h
    rw [gist_tasks_eq]
    simp [h]
  · intro h hne
    rw [gist_tasks_eq]
    have : 0 < data.tasks.length := List.length_pos.mpr hne
    simp [h, this]

theorem loadFromGitHubAsync_frame_witness :
    (strFalsy (some "2024-06-03") = false ∧
      (loadFromGitHubAsync (some "tk")
          (some ⟨some ⟨5⟩, [⟨⟨2⟩, none⟩], []⟩)
          ⟨some "2024-06-03", none, some "[]"⟩
          ⟨some 9, [], [⟨"a", "b", false, none⟩]⟩).targetDate = some 9) ∧
    ((strFalsy (none : Option String) || (none : Option String) == some "[]")
        = true ∧
      ([⟨⟨2⟩, none⟩] : List ExcludedDate) ≠ [] ∧
      (loadFromGitHubAsync (some "tk")
          (some ⟨some ⟨5⟩, [⟨⟨2⟩, none⟩], []⟩)
          ⟨some "2024-06-03", none, some "[]"⟩
          ⟨some 9, [], [⟨"a", "b", false, none⟩]⟩).excludedDates
        = [⟨⟨2⟩, none⟩]) ∧
    (([] : List TaskPayload) = [] ∧
      (loadFromGitHubAsync (some "tk")
          (some ⟨some ⟨5⟩, [⟨⟨2⟩, none⟩], []⟩)
          ⟨some "2024-06-03", none, some "[]"⟩
          ⟨some 9, [], [⟨"a", "b", false, none⟩]⟩).tasks
        = [⟨"a", "b", false, none⟩]) :=
  ⟨⟨by decide,
    (loadFromGitHubAsync_frame "tk" ⟨some ⟨5⟩, [⟨⟨2⟩, none⟩], []⟩
      ⟨some "2024-06-03", none, some "[]"⟩
      ⟨some 9, [], [⟨"a", "b", false, none⟩]⟩).2.2.1 (by decide)⟩,
   ⟨by decide, by decide,
    (loadFromGitHubAsync_frame "tk" ⟨some ⟨5⟩, [⟨⟨2⟩, none⟩], []⟩
      ⟨some "2024-06-03", none, some "[]"⟩
      ⟨some 9, [], [⟨"a", "b", false, none⟩]⟩).2.2.2.2.2.2.2.1 (by decide)
      (by decide)⟩,
   ⟨rfl,
    (loadFromGitHubAsync_frame "tk" ⟨some ⟨5⟩, [⟨⟨2⟩, none⟩], []⟩
      ⟨some "2024-06-03", none, some "[]"⟩
      ⟨some 9, [], [⟨"a", "b", false, none⟩]⟩).2.2.2.2.2.2.2.2.2.1 rfl⟩⟩

end Countdown
